import Mathlib

/-
Verification of the Qt auto-generator planning stage
(Source/cmQtAutoGeneratorInitializer.cxx).

The C++ code is shallowly embedded: each loop becomes a fold over a list,
each mutable accumulation becomes explicit state passing, and external
collaborators (file-system canonicalization, the file-format table, the
build-graph target registry, the resource content lister) become input
fields or function parameters.
-/

namespace QtAutogen

/-- File format classes returned by cmSystemTools::GetFileFormat (external
to this file); only the code/header distinction matters to the classifier. -/
inductive FileFormat where
  | CXX_FILE_FORMAT
  | HEADER_FILE_FORMAT
  | OTHER_FILE_FORMAT
deriving DecidableEq

/-- Policy states of CMP0071, from cmPolicies::PolicyStatus. -/
inductive PolicyStatus where
  | OLD
  | WARN
  | NEW
  | REQUIRED_IF_USED
  | REQUIRED_ALWAYS
deriving DecidableEq

/-- One cmSourceFile as seen by the planner.  fullPath/ext mirror
sf->GetFullPath()/GetExtension(); format is the value
cmSystemTools::GetFileFormat returns for ext; realPath is
cmsys::SystemTools::GetRealPath(fullPath); the Bool fields are the
GetPropertyAsBool lookups; autorccOptions is the expanded
AUTORCC_OPTIONS property (none when the property is unset); rccListOk and
rccInputs model the outcome of cmQtAutoGeneratorCommon::RccListInputs. -/
structure SourceFileEntry where
  fullPath : String
  ext : String
  format : FileFormat
  skipAutogen : Bool
  skipAutomoc : Bool
  skipAutouic : Bool
  skipAutorcc : Bool
  generated : Bool
  realPath : String
  autorccOptions : Option (List String)
  rccListOk : Bool
  rccInputs : List String
deriving DecidableEq

/-- mocSkip flag of SetupAcquireScanFiles (line 313). -/
def sfMocSkip (sf : SourceFileEntry) : Bool :=
  sf.skipAutogen || sf.skipAutomoc

/-- uicSkip flag of SetupAcquireScanFiles (line 314). -/
def sfUicSkip (sf : SourceFileEntry) : Bool :=
  sf.skipAutogen || sf.skipAutouic

/-- accept flag of SetupAcquireScanFiles (line 315). -/
def sfAccept (mocEnabled uicEnabled : Bool) (sf : SourceFileEntry) : Bool :=
  (mocEnabled && !(sfMocSkip sf)) || (uicEnabled && !(sfUicSkip sf))

/-- The policyAccept outcome of the CMP0071 switch (lines 320-338):
WARN falls through to OLD; NEW and the REQUIRED states accept. -/
def policyAccept : PolicyStatus → Bool
  | PolicyStatus.OLD => false
  | PolicyStatus.WARN => false
  | PolicyStatus.NEW => true
  | PolicyStatus.REQUIRED_IF_USED => true
  | PolicyStatus.REQUIRED_ALWAYS => true

/-- The AUTHOR_WARNING text issued under WARN (lines 321-327); the policy
boilerplate prefix is abbreviated, only the shape matters. -/
def cmp0071Warning (absFile : String) : String :=
  "CMP0071: AUTOMOC/AUTOUIC: Ignoring GENERATED source file: " ++ absFile

/-- The four accumulation buckets of struct AutogenSetup (lines 276-288);
the per-configuration maps are modelled separately. -/
structure AutogenSetup where
  sources : List String
  headers : List String
  mocSkip : List String
  uicSkip : List String
deriving DecidableEq

/-- Scan state: the setup buckets plus the warnings issued so far. -/
structure ScanState where
  setup : AutogenSetup
  warnings : List String
deriving DecidableEq

def initScanState : ScanState :=
  { setup := { sources := [], headers := [], mocSkip := [], uicSkip := [] },
    warnings := [] }

/-- The bucket additions of SetupAcquireScanFiles lines 344-367: the skip
lists receive the canonical path whenever the respective skip flag is set,
and sources/headers receive it when the file is accepted. -/
def scanAdd (mocEnabled uicEnabled : Bool) (sf : SourceFileEntry)
    (setup : AutogenSetup) : AutogenSetup :=
  let absFile := sf.realPath
  let s1 :=
    if sfMocSkip sf then { setup with mocSkip := setup.mocSkip ++ [absFile] }
    else setup
  let s2 :=
    if sfUicSkip sf then { s1 with uicSkip := s1.uicSkip ++ [absFile] }
    else s1
  if sfAccept mocEnabled uicEnabled sf then
    match sf.format with
    | FileFormat.CXX_FILE_FORMAT => { s2 with sources := s2.sources ++ [absFile] }
    | FileFormat.HEADER_FILE_FORMAT => { s2 with headers := s2.headers ++ [absFile] }
    | FileFormat.OTHER_FILE_FORMAT => s2
  else s2

/-- One iteration of the SetupAcquireScanFiles loop (lines 298-368).
Files that are neither code nor header format are skipped; an accepted
GENERATED file is subjected to the CMP0071 policy switch, and when the
policy rejects it the loop continues before reaching the bucket
additions. -/
def scanStep (policy : PolicyStatus) (mocEnabled uicEnabled : Bool)
    (st : ScanState) (sf : SourceFileEntry) : ScanState :=
  if (sf.format == FileFormat.CXX_FILE_FORMAT
      || sf.format == FileFormat.HEADER_FILE_FORMAT) = false then st
  else if sfAccept mocEnabled uicEnabled sf && sf.generated then
    let warnings :=
      if policy == PolicyStatus.WARN
      then st.warnings ++ [cmp0071Warning sf.realPath]
      else st.warnings
    if policyAccept policy then
      { setup := scanAdd mocEnabled uicEnabled sf st.setup,
        warnings := warnings }
    else
      { setup := st.setup, warnings := warnings }
  else
    { setup := scanAdd mocEnabled uicEnabled sf st.setup,
      warnings := st.warnings }

/-- SetupAcquireScanFiles (lines 290-369) as a fold over the source list. -/
def setupAcquireScanFiles (policy : PolicyStatus) (mocEnabled uicEnabled : Bool)
    (st : ScanState) (srcFiles : List SourceFileEntry) : ScanState :=
  srcFiles.foldl (scanStep policy mocEnabled uicEnabled) st

/-- Whether a file survives the CMP0071 continue (lines 317-342): it is
dropped exactly when it is accepted, GENERATED and the policy rejects. -/
def scanKept (policy : PolicyStatus) (mocEnabled uicEnabled : Bool)
    (sf : SourceFileEntry) : Bool :=
  !(sfAccept mocEnabled uicEnabled sf && sf.generated && !(policyAccept policy))

def scanFormatOk (sf : SourceFileEntry) : Bool :=
  sf.format == FileFormat.CXX_FILE_FORMAT
    || sf.format == FileFormat.HEADER_FILE_FORMAT

/-- Membership predicate of the sources bucket. -/
def pSources (policy : PolicyStatus) (mocEnabled uicEnabled : Bool)
    (sf : SourceFileEntry) : Bool :=
  scanFormatOk sf && scanKept policy mocEnabled uicEnabled sf
    && sfAccept mocEnabled uicEnabled sf
    && (sf.format == FileFormat.CXX_FILE_FORMAT)

/-- Membership predicate of the headers bucket. -/
def pHeaders (policy : PolicyStatus) (mocEnabled uicEnabled : Bool)
    (sf : SourceFileEntry) : Bool :=
  scanFormatOk sf && scanKept policy mocEnabled uicEnabled sf
    && sfAccept mocEnabled uicEnabled sf
    && (sf.format == FileFormat.HEADER_FILE_FORMAT)

/-- Membership predicate of the moc skip list. -/
def pMocSkip (policy : PolicyStatus) (mocEnabled uicEnabled : Bool)
    (sf : SourceFileEntry) : Bool :=
  scanFormatOk sf && scanKept policy mocEnabled uicEnabled sf && sfMocSkip sf

/-- Membership predicate of the uic skip list. -/
def pUicSkip (policy : PolicyStatus) (mocEnabled uicEnabled : Bool)
    (sf : SourceFileEntry) : Bool :=
  scanFormatOk sf && scanKept policy mocEnabled uicEnabled sf && sfUicSkip sf

/-- The valueOptions table of RccMergeOptions (lines 606-607). -/
def valueOptions : List String := ["name", "root", "compress", "threshold"]

/-- The dash stripping of RccMergeOptions lines 614-620: one leading dash,
and a second one when the tool generation is Qt 5.  Returns none when no
dash was stripped (then optName == fit->c_str() and the value-option test
is not even attempted). -/
def rccStrippedName (isQt5 : Bool) (s : String) : Option String :=
  match s.data with
  | '-' :: rest =>
      match isQt5, rest with
      | true, '-' :: rest2 => some (String.mk rest2)
      | _, _ => some (String.mk rest)
  | _ => none

/-- The value-option test of RccMergeOptions lines 622-624. -/
def isRccValueOption (isQt5 : Bool) (s : String) : Bool :=
  match rccStrippedName isQt5 s with
  | some n => valueOptions.contains n
  | none => false

/-- Index of the first occurrence of a string, modelling
std::find(opts.begin(), opts.end(), *fit) at line 612. -/
def firstIdx (a : String) : List String → Option Nat
  | [] => none
  | b :: bs => if b = a then some 0 else Option.map Nat.succ (firstIdx a bs)

/-- The scan loop of RccMergeOptions (lines 609-635).  State: the
(value-mutated) target-level list and the queued extra options; the value
replacement happens only when both the existing option and the file option
are followed by a value token (line 627), and then the file-level scan
advances past the value as well (line 629).  The singleton case collapses
the found branch: with no following file token the replacement condition
at line 627 is false whether or not the option is value bearing, so a
found final token leaves the state unchanged. -/
def rccMergeLoop (isQt5 : Bool) (opts extraOpts : List String) :
    List String → List String × List String
  | [] => (opts, extraOpts)
  | [fit] =>
    match firstIdx fit opts with
    | some _ => (opts, extraOpts)
    | none => (opts, extraOpts ++ [fit])
  | fit :: fileValue :: rest2 =>
    match firstIdx fit opts with
    | some i =>
      if isRccValueOption isQt5 fit then
        if i + 1 < opts.length then
          rccMergeLoop isQt5 (opts.set (i + 1) fileValue) extraOpts rest2
        else
          rccMergeLoop isQt5 opts extraOpts (fileValue :: rest2)
      else rccMergeLoop isQt5 opts extraOpts (fileValue :: rest2)
    | none => rccMergeLoop isQt5 opts (extraOpts ++ [fit]) (fileValue :: rest2)

/-- RccMergeOptions (lines 602-637): the merged result is the mutated
target-level list followed by the queued extra options (line 636). -/
def RccMergeOptions (opts fileOpts : List String) (isQt5 : Bool) :
    List String :=
  let p := rccMergeLoop isQt5 opts [] fileOpts
  p.1 ++ p.2

/-- Result of one tool-executable resolution block: the executable path
that ends up in the descriptor variable, and the error reported through
cmSystemTools::Error, if any. -/
structure ToolResolveResult where
  exec : String
  errorReported : Option String
deriving DecidableEq

/-- The moc executable block of SetupAutoTargetMoc (lines 422-451).
reg models localGen->FindGeneratorTargetToUse composed with
SafeString(ImportedGetLocation("")): some loc when the import target
exists.  On error the target name is appended at the report site
(line 448). -/
def mocResolve (reg : String → Option String) (qtMajorVersion tname : String) :
    ToolResolveResult :=
  let r : String × String :=
    if qtMajorVersion = "5" then
      match reg "Qt5::moc" with
      | some loc => (loc, "")
      | none => ("", "AUTOMOC: Qt5::moc target not found")
    else if qtMajorVersion = "4" then
      match reg "Qt4::moc" with
      | some loc => (loc, "")
      | none => ("", "AUTOMOC: Qt4::moc target not found")
    else ("", "The AUTOMOC feature supports only Qt 4 and Qt 5")
  if r.2 = "" then { exec := r.1, errorReported := none }
  else { exec := r.1, errorReported := some (r.2 ++ " (" ++ tname ++ ")") }

/-- The uic executable block of SetupAutoTargetUic (lines 538-567).
Unlike the other tools, a missing Qt5::uic target is NOT an error: the
code comments that the project does not use Qt5Widgets but has AUTOUIC ON
anyway (lines 547-549). -/
def uicResolve (reg : String → Option String) (qtMajorVersion tname : String) :
    ToolResolveResult :=
  let r : String × String :=
    if qtMajorVersion = "5" then
      match reg "Qt5::uic" with
      | some loc => (loc, "")
      | none => ("", "")
    else if qtMajorVersion = "4" then
      match reg "Qt4::uic" with
      | some loc => (loc, "")
      | none => ("", "AUTOUIC: Qt4::uic target not found")
    else ("", "The AUTOUIC feature supports only Qt 4 and Qt 5")
  if r.2 = "" then { exec := r.1, errorReported := none }
  else { exec := r.1, errorReported := some (r.2 ++ " (" ++ tname ++ ")") }

/-- RccGetExecutable (lines 570-600). -/
def rccResolve (reg : String → Option String) (qtMajorVersion tname : String) :
    ToolResolveResult :=
  let r : String × String :=
    if qtMajorVersion = "5" then
      match reg "Qt5::rcc" with
      | some loc => (loc, "")
      | none => ("", "AUTORCC: Qt5::rcc target not found")
    else if qtMajorVersion = "4" then
      match reg "Qt4::rcc" with
      | some loc => (loc, "")
      | none => ("", "AUTORCC: Qt4::rcc target not found")
    else ("", "The AUTORCC feature supports only Qt 4 and Qt 5")
  if r.2 = "" then { exec := r.1, errorReported := none }
  else { exec := r.1, errorReported := some (r.2 ++ " (" ++ tname ++ ")") }

/-- The toolNames vector of InitializeAutogenTarget (lines 755-764). -/
def autogenToolNames (mocEnabled uicEnabled rccEnabled : Bool) : List String :=
  (if mocEnabled then ["MOC"] else [])
    ++ (if uicEnabled then ["UIC"] else [])
    ++ (if rccEnabled then ["RCC"] else [])

/-- The comment composition loop (lines 766-774): after consuming the
first element, every element but the last is joined with a comma and the
last one with an and. -/
def composeToolsString (tools : String) : List String → String
  | [] => tools
  | [last] => tools ++ " and " ++ last
  | t :: ts => composeToolsString (tools ++ ", " ++ t) ts

/-- The autogenComment composition (lines 752-776).  The unconditional
read of toolNames[0] at line 766 is out of range when the vector is
empty; the embedding makes that case explicit as none. -/
def mkAutogenComment (mocEnabled uicEnabled rccEnabled : Bool)
    (targetName : String) : Option String :=
  match autogenToolNames mocEnabled uicEnabled rccEnabled with
  | [] => none
  | t :: ts =>
    some ("Automatic " ++ composeToolsString t ts ++ " for target " ++ targetName)

/-- Modelled from the spec: cmJoin of cmAlgorithms.h is repository code
that is not under src/; the spec describes it as a deterministic
separator-joined representation of a list, which is what this definition
produces (first element, then separator plus element for each rest
element). -/
def cmJoinSep (sep : String) : List String → String
  | [] => ""
  | [x] => x
  | x :: xs => x ++ sep ++ cmJoinSep sep xs

/-- The configuration-diff loops of SetupAutoTargetMoc (lines 406-419)
and SetupAutoTargetUic (lines 496-504): the baseline value is the joined
list at the baseline configuration, and a configuration is recorded with
its joined value exactly when that string differs from the baseline
string.  valsOf models the per-configuration query
(GetCompileDefinitionsAndDirectories / GetAutoUicOptions, both joined
with a semicolon at lines 144, 149 and 459). -/
def configDiffEntries (valsOf : String → List String) (baseline : String)
    (configs : List String) : List (String × String) :=
  configs.filterMap fun c =>
    if cmJoinSep ";" (valsOf c) = cmJoinSep ";" (valsOf baseline) then none
    else some (c, cmJoinSep ";" (valsOf c))

/-- One .qrc source entry of the InitializeAutogenTarget qrc loop:
its canonical path, GENERATED flag, and the outcome of
cmQtAutoGeneratorCommon::RccListInputs on it (an external collaborator):
listOk with the listed content inputs, or an error message. -/
structure QrcEntry where
  path : String
  generated : Bool
  listOk : Bool
  inputs : List String
  errorMsg : String
deriving DecidableEq

/-- The accumulation state of InitializeAutogenTarget that the qrc loop
touches: the dependency set (std::set autogenDependsSet), the files
registered through makefile->AddCMakeDependFile, the provided outputs and
the reported errors. -/
structure AutogenDeps where
  dependsSet : Finset String
  cmakeDependFiles : List String
  autogenProvides : List String
  errors : List String
deriving DecidableEq

/-- One iteration of the qrc loop of InitializeAutogenTarget
(lines 897-935).  rccBuildFileOf models the output-name composition of
lines 903-909 (build dir, checksum part and base name are external
inputs).  A GENERATED qrc file contributes its own path to the dependency
set (line 919); a non-generated one is registered as a CMake depend file
(line 922) and contributes its listed content inputs (line 929), or an
error when listing failed (line 931). -/
def processQrcEntry (rccBuildFileOf : String → String)
    (st : AutogenDeps) (e : QrcEntry) : AutogenDeps :=
  let st1 :=
    { st with autogenProvides := st.autogenProvides ++ [rccBuildFileOf e.path] }
  if e.generated then
    { st1 with dependsSet := insert e.path st1.dependsSet }
  else
    let st2 := { st1 with cmakeDependFiles := st1.cmakeDependFiles ++ [e.path] }
    if e.listOk then
      { st2 with dependsSet := st2.dependsSet ∪ e.inputs.toFinset }
    else
      { st2 with errors := st2.errors ++ [e.errorMsg] }

/-- The whole qrc loop (lines 897-935) as a fold. -/
def processQrcEntries (rccBuildFileOf : String → String)
    (st : AutogenDeps) (es : List QrcEntry) : AutogenDeps :=
  es.foldl (processQrcEntry rccBuildFileOf) st

/-- The list separator constant cmQtAutoGeneratorCommon::listSep (defined
outside src/); its concrete value is irrelevant to every claim. -/
def listSep : String := "@LSEP@"

/-- The accumulation vectors of SetupAutoTargetRcc (lines 646-649). -/
structure RccSetup where
  rccFiles : List String
  rccInputs : List String
  rccFileFiles : List String
  rccFileOptions : List String
deriving DecidableEq

def initRccSetup : RccSetup :=
  { rccFiles := [], rccInputs := [], rccFileFiles := [], rccFileOptions := [] }

/-- The eligibility test of the SetupAutoTargetRcc loop (lines 660-662). -/
def rccEligible (sf : SourceFileEntry) : Bool :=
  sf.ext == "qrc" && !sf.skipAutogen && !sf.skipAutorcc

/-- One iteration of the SetupAutoTargetRcc loop (lines 655-700): an
eligible qrc file is appended to rccFiles; its entries list is read only
for non generated files; target and file options are merged through
RccMergeOptions and stored when non empty. -/
def rccStep (isQt5 : Bool) (rccOptionsTarget : List String)
    (st : RccSetup) (sf : SourceFileEntry) : RccSetup :=
  if rccEligible sf then
    let absFile := sf.realPath
    let st1 := { st with rccFiles := st.rccFiles ++ [absFile] }
    let entriesList :=
      "\x7b"
        ++ (if !sf.generated && sf.rccListOk
            then cmJoinSep listSep sf.rccInputs else "")
        ++ "\x7d"
    let st2 := { st1 with rccInputs := st1.rccInputs ++ [entriesList] }
    let rccOptions :=
      match sf.autorccOptions with
      | some optsVec => RccMergeOptions rccOptionsTarget optsVec isQt5
      | none => rccOptionsTarget
    if rccOptions = [] then st2
    else
      { st2 with
        rccFileFiles := st2.rccFileFiles ++ [absFile],
        rccFileOptions :=
          st2.rccFileOptions ++ [cmJoinSep listSep rccOptions] }
  else st

/-- The SetupAutoTargetRcc loop (lines 655-700) as a fold. -/
def setupAutoTargetRccFiles (isQt5 : Bool) (rccOptionsTarget : List String)
    (st : RccSetup) (srcFiles : List SourceFileEntry) : RccSetup :=
  srcFiles.foldl (rccStep isQt5 rccOptionsTarget) st

/-- The cmMakefile variable-definition state as a stack of scopes:
AddDefinition installs into the innermost scope,
cmMakefile::ScopePushPop pushes a scope on construction and pops it on
destruction. -/
abbrev VarScopeStack := List (List (String × String))

def scopePush (st : VarScopeStack) : VarScopeStack := [] :: st

def addDefinition (key value : String) : VarScopeStack → VarScopeStack
  | [] => []
  | frame :: rest => ((key, value) :: frame) :: rest

def scopePop : VarScopeStack → VarScopeStack
  | [] => []
  | _ :: rest => rest

/-- The values passed to the AddDefinitionEscaped calls that make up
SetupAutoGenerateTarget (directly at lines 1053-1057, and through
SetupAutoTargetMoc, SetupAutoTargetUic and SetupAutoTargetRcc).  The
string fields carry the already-computed values; the Bool fields select
the conditional definitions (Qt >= 5.8 at line 391, the err.empty()
checks at lines 445 and 561, and the three enable flags). -/
structure AutogenDefValues where
  mocEnabled : Bool
  uicEnabled : Bool
  rccEnabled : Bool
  qtGE58 : Bool
  mocResolved : Bool
  uicResolved : Bool
  mocSkipVal : String
  mocOptions : String
  mocRelaxedMode : Bool
  mocMacroNames : String
  mocDependFilters : String
  mocPredefsCmd : String
  mocIncs : String
  mocCompileDefs : String
  mocExec : String
  uicSkipVal : String
  uicSearchPaths : String
  uicTargetOptions : String
  uicOptionsFiles : String
  uicOptionsOptions : String
  uicExec : String
  rccExec : String
  rccFilesVal : String
  rccInputsVal : String
  rccOptionsFiles : String
  rccOptionsOptions : String
  buildDir : String
  qtVersionMajor : String
  sourcesVal : String
  headersVal : String

/-- The definitions installed by SetupAutoTargetMoc (lines 380-396,
403-404, 446), in call order. -/
def mocDefinitions (v : AutogenDefValues) : List (String × String) :=
  [("_moc_skip", v.mocSkipVal),
   ("_moc_options", v.mocOptions),
   ("_moc_relaxed_mode", if v.mocRelaxedMode then "TRUE" else "FALSE"),
   ("_moc_macro_names", v.mocMacroNames),
   ("_moc_depend_filters", v.mocDependFilters)]
    ++ (if v.qtGE58 then [("_moc_predefs_cmd", v.mocPredefsCmd)] else [])
    ++ [("_moc_incs", v.mocIncs), ("_moc_compile_defs", v.mocCompileDefs)]
    ++ (if v.mocResolved then [("_qt_moc_executable", v.mocExec)] else [])

/-- The definitions installed by SetupAutoTargetUic (lines 471, 487, 494,
534-535, 562), in call order. -/
def uicDefinitions (v : AutogenDefValues) : List (String × String) :=
  [("_uic_skip", v.uicSkipVal),
   ("_uic_search_paths", v.uicSearchPaths),
   ("_uic_target_options", v.uicTargetOptions),
   ("_qt_uic_options_files", v.uicOptionsFiles),
   ("_qt_uic_options_options", v.uicOptionsOptions)]
    ++ (if v.uicResolved then [("_qt_uic_executable", v.uicExec)] else [])

/-- The definitions installed by SetupAutoTargetRcc (lines 702-706). -/
def rccDefinitions (v : AutogenDefValues) : List (String × String) :=
  [("_qt_rcc_executable", v.rccExec),
   ("_rcc_files", v.rccFilesVal),
   ("_rcc_inputs", v.rccInputsVal),
   ("_rcc_options_files", v.rccOptionsFiles),
   ("_rcc_options_options", v.rccOptionsOptions)]

/-- All variable definitions installed during SetupAutoGenerateTarget, in
call order (lines 1039-1050 for the tool setups, lines 1053-1057 for the
trailing four). -/
def autogenDefinitions (v : AutogenDefValues) : List (String × String) :=
  (if v.mocEnabled || v.uicEnabled then
    (if v.mocEnabled then mocDefinitions v else [])
      ++ (if v.uicEnabled then uicDefinitions v else [])
   else [])
    ++ (if v.rccEnabled then rccDefinitions v else [])
    ++ [("_build_dir", v.buildDir),
        ("_qt_version_major", v.qtVersionMajor),
        ("_sources", v.sourcesVal),
        ("_headers", v.headersVal)]

/-- The effect of SetupAutoGenerateTarget (lines 1005-1125) on the
makefile variable state: a scope is pushed on entry (cmMakefile::
ScopePushPop varScope at line 1011), every AddDefinitionEscaped call
installs into it (esc models cmOutputConverter::EscapeForCMake), and the
scope is popped when the function returns.  The descriptor file written
at lines 1060-1124 is a separate output and does not touch the variable
state. -/
def setupAutoGenerateTargetScope (esc : String → String)
    (v : AutogenDefValues) (st : VarScopeStack) : VarScopeStack :=
  scopePop
    ((autogenDefinitions v).foldl
      (fun s kv => addDefinition kv.1 (esc kv.2) s) (scopePush st))

/-- Fixture: a plain header file with no skip flags. -/
def hdrEntry (p : String) : SourceFileEntry :=
  { fullPath := p, ext := "h", format := FileFormat.HEADER_FILE_FORMAT,
    skipAutogen := false, skipAutomoc := false, skipAutouic := false,
    skipAutorcc := false, generated := false, realPath := p,
    autorccOptions := none, rccListOk := true, rccInputs := [] }

/-- Fixture: a GENERATED header carrying SKIP_AUTOMOC. -/
def genMocSkipHdrEntry (p : String) : SourceFileEntry :=
  { hdrEntry p with generated := true, skipAutomoc := true }

/-- Fixture for the configuration differ: configuration A computes the
same two elements as the baseline B but in the opposite order, and one
element contains the join separator. -/
def cexValsOf : String → List String :=
  fun c => if c = "A" then ["x", "x;x"] else ["x;x", "x"]

/-- Fixture for the configuration differ: configuration A computes the
two separator-free elements of the baseline B in the opposite order. -/
def pValsOf : String → List String :=
  fun c => if c = "A" then ["a", "b"] else ["b", "a"]

/-- Fixture: a header listed under a second path (a symlink) whose
canonical real path coincides with that of hdrEntry "p". -/
def hdrEntrySymlink : SourceFileEntry :=
  { hdrEntry "q" with realPath := "p" }

/-- Proof-infrastructure mirror of cmJoinSep at the character-list level,
used to reason about injectivity of the separator join. -/
def dataJoin (sep : Char) : List (List Char) → List Char
  | [] => []
  | [x] => x
  | x :: xs => x ++ sep :: dataJoin sep xs

end QtAutogen

namespace QtAutogen

/-- Helper: folding AddDefinition calls over a scope stack only ever
touches the innermost scope. -/
theorem addDefs_preserves_tail (esc : String → String) :
    ∀ (defs : List (String × String)) (frame : List (String × String))
      (st : VarScopeStack),
      ∃ frame2,
        defs.foldl (fun s kv => addDefinition kv.1 (esc kv.2) s) (frame :: st)
          = frame2 :: st := by
  intro defs
  induction defs with
  | nil => exact fun frame st => ⟨frame, rfl⟩
  | cons kv rest ih =>
    intro frame st
    have h := ih ((kv.1, esc kv.2) :: frame) st
    simpa [List.foldl, addDefinition] using h

/-- C10: every variable definition added during SetupAutoGenerateTarget
(the _sources, _headers, _moc_skip, _qt_moc_executable, _rcc_files and
all other AddDefinitionEscaped calls) is installed inside the variable
scope pushed at function entry and popped at return, so the makefile
definition state after the call equals the state before it; only the
separately written descriptor file persists. -/
theorem setupAutoGenerateTarget_frame (esc : String → String)
    (v : AutogenDefValues) (st : VarScopeStack) :
    setupAutoGenerateTargetScope esc v st = st := by
  unfold setupAutoGenerateTargetScope scopePush
  obtain ⟨frame2, h⟩ := addDefs_preserves_tail esc (autogenDefinitions v) [] st
  rw [h]
  rfl

/-- C8: the toolNames[0] read in the target comment composition of
InitializeAutogenTarget is in bounds exactly when at least one of the
AUTOMOC/AUTOUIC/AUTORCC flags is enabled; with all three disabled the
tool-name list is empty and the access is out of range. -/
theorem autogenComment_inBounds :
    (∀ (mocEnabled uicEnabled rccEnabled : Bool) (tname : String),
      (mkAutogenComment mocEnabled uicEnabled rccEnabled tname).isSome
        = (mocEnabled || uicEnabled || rccEnabled))
    ∧ autogenToolNames false false false = [] := by
  constructor
  · intro m u r t
    cases m <;> cases u <;> cases r <;> rfl
  · rfl

/-- C3 counterexample: in the version-4 dash-stripping mode only one
leading dash is stripped, so the doubly dashed name token is not
recognized as a value-bearing option and the merge does not produce the
result the claim states for every tool generation. -/
theorem rccMergeExample_qt4_cex :
    RccMergeOptions ["--name", "foo", "--verbose"]
        ["--name", "bar", "--root", "/r"] false
      ≠ ["--name", "bar", "--verbose", "--root", "/r"] := by decide

/-- C3 (amended): merging the target list with the file list yields the
claimed value-overridden result in the version-5 mode; in the version-4
mode the doubly dashed name token is not a value option, so the existing
pair is kept and the remaining file tokens are appended. -/
theorem rccMergeExample_merged :
    RccMergeOptions ["--name", "foo", "--verbose"]
        ["--name", "bar", "--root", "/r"] true
      = ["--name", "bar", "--verbose", "--root", "/r"]
    ∧ RccMergeOptions ["--name", "foo", "--verbose"]
        ["--name", "bar", "--root", "/r"] false
      = ["--name", "foo", "--verbose", "bar", "--root", "/r"] := by decide

/-- C5 counterexample: merging a list with itself is not idempotent when
a value-bearing option token occurs twice with different values: the scan
of the second occurrence finds the first one and overwrites its value. -/
theorem rccMergeSelf_cex :
    RccMergeOptions ["--name", "A", "--name", "B"]
        ["--name", "A", "--name", "B"] true
      = ["--name", "B", "--name", "B"]
    ∧ RccMergeOptions ["--name", "A", "--name", "B"]
        ["--name", "A", "--name", "B"] true
      ≠ ["--name", "A", "--name", "B"] := by decide

/-- C9: when a matching value-bearing option token has its first
occurrence at the last position of the target-level list, or is the last
element of the file-level list, the guard at line 627 fails on that
side: no out-of-range access happens in the embedding, the value
replacement is skipped, the target-level list is left unchanged and the
scan continues with the next file-level token. -/
theorem rccMergeLoop_missingValue (isQt5 : Bool)
    (opts extraOpts : List String) (fit : String) (rest : List String)
    (i : Nat) (hfound : firstIdx fit opts = some i)
    (hval : isRccValueOption isQt5 fit = true)
    (hmiss : i + 1 = opts.length ∨ rest = []) :
    rccMergeLoop isQt5 opts extraOpts (fit :: rest)
      = rccMergeLoop isQt5 opts extraOpts rest := by
  cases rest with
  | nil => simp [rccMergeLoop, hfound]
  | cons fv rest2 =>
    have hlen : ¬ (i + 1 < opts.length) := by
      rcases hmiss with h | h
      · omega
      · exact absurd h (List.cons_ne_nil fv rest2)
    simp [rccMergeLoop, hfound, hval, hlen]

/-- C9 witness at a concrete input. -/
theorem rccMergeLoop_missingValue_witness :
    firstIdx "--name" ["--name"] = some 0
    ∧ isRccValueOption true "--name" = true
    ∧ (0 + 1 = (["--name"] : List String).length
        ∨ (["X"] : List String) = [])
    ∧ rccMergeLoop true ["--name"] [] ["--name", "X"]
        = rccMergeLoop true ["--name"] [] ["X"] :=
  ⟨by decide, by decide, Or.inl (by decide),
    rccMergeLoop_missingValue true ["--name"] [] "--name" ["X"] 0
      (by decide) (by decide) (Or.inl (by decide))⟩

/-- C2 counterexample: for the UI tool at version 5, an absent import
target Qt5::uic does NOT produce a resolution error — the code
deliberately stays silent (the project may not use Qt5Widgets) and
records an empty executable path. -/
theorem uicResolve_qt5_absent_cex :
    (uicResolve (fun _ => none) "5" "T").errorReported = none
    ∧ (uicResolve (fun _ => none) "5" "T").exec = "" := by decide

/-- C2 (amended): when the conventionally named import target is absent,
the resolver for moc (versions 4 and 5), for rcc (versions 4 and 5) and
for uic version 4 produces a resolution error naming the tool and the
missing target, with the build target name appended, and records an
empty executable path; for uic at version 5 the absent target is silently
accepted with an empty executable path.  In all six cases the resolver
returns a value, so planning continues. -/
theorem toolResolve_absentTarget (reg : String → Option String)
    (tname : String) :
    (reg "Qt5::moc" = none →
      mocResolve reg "5" tname
        = { exec := "",
            errorReported :=
              some ("AUTOMOC: Qt5::moc target not found"
                ++ " (" ++ tname ++ ")") })
    ∧ (reg "Qt4::moc" = none →
      mocResolve reg "4" tname
        = { exec := "",
            errorReported :=
              some ("AUTOMOC: Qt4::moc target not found"
                ++ " (" ++ tname ++ ")") })
    ∧ (reg "Qt4::uic" = none →
      uicResolve reg "4" tname
        = { exec := "",
            errorReported :=
              some ("AUTOUIC: Qt4::uic target not found"
                ++ " (" ++ tname ++ ")") })
    ∧ (reg "Qt5::uic" = none →
      uicResolve reg "5" tname = { exec := "", errorReported := none })
    ∧ (reg "Qt5::rcc" = none →
      rccResolve reg "5" tname
        = { exec := "",
            errorReported :=
              some ("AUTORCC: Qt5::rcc target not found"
                ++ " (" ++ tname ++ ")") })
    ∧ (reg "Qt4::rcc" = none →
      rccResolve reg "4" tname
        = { exec := "",
            errorReported :=
              some ("AUTORCC: Qt4::rcc target not found"
                ++ " (" ++ tname ++ ")") }) := by
  refine ⟨?_, ?_, ?_, ?_, ?_, ?_⟩ <;> intro h <;>
    simp [mocResolve, uicResolve, rccResolve, h]

/-- C2 witness at a concrete registry and target name. -/
theorem toolResolve_absentTarget_witness :
    mocResolve (fun _ => none) "5" "T"
      = { exec := "",
          errorReported :=
            some ("AUTOMOC: Qt5::moc target not found" ++ " (" ++ "T" ++ ")") }
    ∧ rccResolve (fun _ => none) "4" "T"
      = { exec := "",
          errorReported :=
            some ("AUTORCC: Qt4::rcc target not found" ++ " (" ++ "T" ++ ")") }
    ∧ uicResolve (fun _ => none) "5" "T"
      = { exec := "", errorReported := none } :=
  ⟨(toolResolve_absentTarget (fun _ => none) "T").1 rfl,
   (toolResolve_absentTarget (fun _ => none) "T").2.2.2.2.2 rfl,
   (toolResolve_absentTarget (fun _ => none) "T").2.2.2.1 rfl⟩

/-- C6: the qrc-loop contribution of one resource file to the dependency
machinery: a GENERATED qrc file adds exactly its own canonical path to
the dependency set and is not registered as a reconfigure trigger; a
non-generated one is registered as a reconfigure trigger and, when its
content listing succeeds, adds exactly its listed content inputs to the
dependency set (its own path is not among the content additions). -/
theorem qrcEntry_dependContribution (rccBuildFileOf : String → String)
    (st : AutogenDeps) (e : QrcEntry) :
    (e.generated = true →
      (processQrcEntry rccBuildFileOf st e).dependsSet
          = insert e.path st.dependsSet
      ∧ (processQrcEntry rccBuildFileOf st e).cmakeDependFiles
          = st.cmakeDependFiles)
    ∧ (e.generated = false →
      (processQrcEntry rccBuildFileOf st e).cmakeDependFiles
          = st.cmakeDependFiles ++ [e.path]
      ∧ (e.listOk = true →
          (processQrcEntry rccBuildFileOf st e).dependsSet
            = st.dependsSet ∪ e.inputs.toFinset)
      ∧ (e.listOk = false →
          (processQrcEntry rccBuildFileOf st e).dependsSet
            = st.dependsSet)) := by
  constructor
  · intro h
    constructor <;> simp [processQrcEntry, h]
  · intro h
    refine ⟨?_, ?_, ?_⟩
    · cases hl : e.listOk <;> simp [processQrcEntry, h, hl]
    · intro hl; simp [processQrcEntry, h, hl]
    · intro hl; simp [processQrcEntry, h, hl]

/-- C6 witness at two concrete qrc entries. -/
theorem qrcEntry_dependContribution_witness :
    ((processQrcEntry (fun p => p ++ ".cpp") ⟨∅, [], [], []⟩
        ⟨"g.qrc", true, true, ["i1"], ""⟩).dependsSet
      = insert "g.qrc" (∅ : Finset String)
    ∧ (processQrcEntry (fun p => p ++ ".cpp") ⟨∅, [], [], []⟩
        ⟨"g.qrc", true, true, ["i1"], ""⟩).cmakeDependFiles = [])
    ∧ ((processQrcEntry (fun p => p ++ ".cpp") ⟨∅, [], [], []⟩
        ⟨"n.qrc", false, true, ["i1", "i2"], ""⟩).cmakeDependFiles
      = [] ++ ["n.qrc"]
    ∧ (processQrcEntry (fun p => p ++ ".cpp") ⟨∅, [], [], []⟩
        ⟨"n.qrc", false, true, ["i1", "i2"], ""⟩).dependsSet
      = (∅ : Finset String) ∪ (["i1", "i2"] : List String).toFinset) :=
  ⟨(qrcEntry_dependContribution (fun p => p ++ ".cpp") ⟨∅, [], [], []⟩
      ⟨"g.qrc", true, true, ["i1"], ""⟩).1 rfl,
   (qrcEntry_dependContribution (fun p => p ++ ".cpp") ⟨∅, [], [], []⟩
      ⟨"n.qrc", false, true, ["i1", "i2"], ""⟩).2 rfl |>.1,
   (qrcEntry_dependContribution (fun p => p ++ ".cpp") ⟨∅, [], [], []⟩
      ⟨"n.qrc", false, true, ["i1", "i2"], ""⟩).2 rfl |>.2.1 rfl⟩

/-- Helper: a member always has a first index. -/
theorem firstIdx_some_of_mem (a : String) :
    ∀ (l : List String), a ∈ l → ∃ i, firstIdx a l = some i := by
  intro l
  induction l with
  | nil => intro h; cases h
  | cons b bs ih =>
    intro hmem
    by_cases hb : b = a
    · exact ⟨0, by simp [firstIdx, hb]⟩
    · rcases List.mem_cons.mp hmem with h | h
      · exact absurd h.symm hb
      · obtain ⟨i, hi⟩ := ih h
        exact ⟨i + 1, by simp [firstIdx, hb, hi]⟩

/-- Helper: the first index of an element that does not occur earlier. -/
theorem firstIdx_append_cons (a : String) :
    ∀ (pre l : List String), a ∉ pre →
      firstIdx a (pre ++ a :: l) = some pre.length := by
  intro pre
  induction pre with
  | nil => intro l _; simp [firstIdx]
  | cons b bs ih =>
    intro l hnot
    have hb : ¬ (b = a) := fun h => hnot (h ▸ List.mem_cons_self b bs)
    have hbs : a ∉ bs := fun h => hnot (List.mem_cons_of_mem b h)
    simp [firstIdx, hb, ih l hbs]

/-- Helper: overwriting a position with the value it already holds is the
identity. -/
theorem set_append_cons_two (x v : String) :
    ∀ (pre r : List String),
      (pre ++ x :: v :: r).set (pre.length + 1) v = pre ++ x :: v :: r := by
  intro pre
  induction pre with
  | nil => intro r; simp [List.set]
  | cons p ps ih => intro r; simp [List.set, ih r]

/-- Helper: self-merge invariant of the RccMergeOptions scan.  When every
value-bearing option token occurs at most once in L, scanning any suffix
of L against L itself leaves the state unchanged. -/
theorem rccMergeLoop_self (isQt5 : Bool) (L : List String)
    (hyp : ∀ t ∈ L, isRccValueOption isQt5 t = true → L.count t ≤ 1) :
    ∀ (n : Nat) (pre suf extra : List String), suf.length ≤ n →
      L = pre ++ suf → rccMergeLoop isQt5 L extra suf = (L, extra) := by
  intro n
  induction n with
  | zero =>
    intro pre suf extra hle hsplit
    have hnil : suf = [] := List.eq_nil_of_length_eq_zero (Nat.le_zero.mp hle)
    subst hnil
    rfl
  | succ n ih =>
    intro pre suf extra hle hsplit
    cases suf with
    | nil => rfl
    | cons fit rest =>
      have hmem : fit ∈ L := by rw [hsplit]; simp
      obtain ⟨i, hi⟩ := firstIdx_some_of_mem fit L hmem
      cases rest with
      | nil =>
        simp [rccMergeLoop, hi]
      | cons fv rest2 =>
        cases hval : isRccValueOption isQt5 fit with
        | false =>
          have hgoal : rccMergeLoop isQt5 L extra (fv :: rest2) = (L, extra) := by
            refine ih (pre ++ [fit]) (fv :: rest2) extra ?_ ?_
            · simp at hle ⊢; omega
            · rw [hsplit]; simp
          simp [rccMergeLoop, hi, hval, hgoal]
        | true =>
          have hcount : L.count fit ≤ 1 := hyp fit hmem hval
          have hpre : fit ∉ pre := by
            rw [hsplit, List.count_append] at hcount
            have h2 : (fit :: fv :: rest2).count fit
                = (fv :: rest2).count fit + 1 := List.count_cons_self fit _
            refine List.count_eq_zero.mp ?_
            omega
          have hfirst : firstIdx fit L = some pre.length := by
            rw [hsplit]; exact firstIdx_append_cons fit pre (fv :: rest2) hpre
          have hlen : pre.length + 1 < L.length := by
            rw [hsplit]; simp only [List.length_append, List.length_cons]; omega
          have hset : L.set (pre.length + 1) fv = L := by
            rw [hsplit]; exact set_append_cons_two fit fv pre rest2
          have hgoal : rccMergeLoop isQt5 L extra rest2 = (L, extra) := by
            refine ih (pre ++ [fit, fv]) rest2 extra ?_ ?_
            · simp at hle ⊢; omega
            · rw [hsplit]; simp
          simp [rccMergeLoop, hfirst, hval, hlen, hset, hgoal]

/-- C5 (amended): RccMergeOptions is idempotent on every target-level
list in which no value-bearing option token (for the active tool
generation) occurs more than once: merging such a list with itself as
the file-level list returns it unchanged.  (The counterexample shows the
restriction is necessary: a value option occurring twice with different
values is rewritten by the scan of its second occurrence.) -/
theorem rccMergeOptions_selfMerge (isQt5 : Bool) (L : List String)
    (hyp : ∀ t ∈ L, isRccValueOption isQt5 t = true → L.count t ≤ 1) :
    RccMergeOptions L L isQt5 = L := by
  unfold RccMergeOptions
  rw [rccMergeLoop_self isQt5 L hyp L.length [] L [] (le_refl _)
    (List.nil_append L).symm]
  simp

/-- C5 witness at a concrete option list. -/
theorem rccMergeOptions_selfMerge_witness :
    (∀ t ∈ (["--name", "A", "--verbose"] : List String),
      isRccValueOption true t = true
        → (["--name", "A", "--verbose"] : List String).count t ≤ 1)
    ∧ RccMergeOptions ["--name", "A", "--verbose"]
        ["--name", "A", "--verbose"] true = ["--name", "A", "--verbose"] :=
  ⟨by decide, rccMergeOptions_selfMerge true ["--name", "A", "--verbose"]
    (by decide)⟩

/-- C1 counterexample: a GENERATED header carrying SKIP_AUTOMOC while
still eligible through the enabled UI tool under the OLD policy: the
continue at line 340 runs before the skip-list additions at lines
344-353, so the file drops out of the moc skip list as well, although
its skip flag is set and the claim demands it stay listed. -/
theorem scanFiles_oldPolicy_skipList_cex :
    sfMocSkip (genMocSkipHdrEntry "p") = true
    ∧ sfAccept true true (genMocSkipHdrEntry "p") = true
    ∧ (genMocSkipHdrEntry "p").generated = true
    ∧ (setupAcquireScanFiles PolicyStatus.OLD true true initScanState
        [genMocSkipHdrEntry "p"]).setup.mocSkip = []
    ∧ (setupAcquireScanFiles PolicyStatus.OLD true true initScanState
        [genMocSkipHdrEntry "p"]).setup.headers = [] := by decide

/-- C1 (amended): under the OLD policy (and under WARN, which behaves as
OLD plus a warning), every generated source file of code or header format
that is otherwise eligible for an enabled tool is dropped from the
compilable-sources and headers buckets, and — contrary to the original
claim — it is also dropped from both skip lists: the scan step leaves all
four buckets unchanged, and only under WARN the diagnostic is recorded. -/
theorem scanStep_policyOldWarn_dropsAll (policy : PolicyStatus)
    (mocEnabled uicEnabled : Bool) (st : ScanState) (sf : SourceFileEntry)
    (hpol : policy = PolicyStatus.OLD ∨ policy = PolicyStatus.WARN)
    (hfmt : scanFormatOk sf = true)
    (hacc : sfAccept mocEnabled uicEnabled sf = true)
    (hgen : sf.generated = true) :
    (scanStep policy mocEnabled uicEnabled st sf).setup = st.setup
    ∧ (scanStep policy mocEnabled uicEnabled st sf).warnings
        = (if policy = PolicyStatus.WARN
           then st.warnings ++ [cmp0071Warning sf.realPath]
           else st.warnings) := by
  have hpa : policyAccept policy = false := by
    rcases hpol with h | h <;> simp [h, policyAccept]
  have hfmt2 : (sf.format == FileFormat.CXX_FILE_FORMAT
      || sf.format == FileFormat.HEADER_FILE_FORMAT) = true := hfmt
  constructor <;> simp [scanStep, hfmt2, hacc, hgen, hpa]

/-- C1 witness at a concrete generated skip-flagged header. -/
theorem scanStep_policyOldWarn_dropsAll_witness :
    scanFormatOk (genMocSkipHdrEntry "p") = true
    ∧ sfAccept true true (genMocSkipHdrEntry "p") = true
    ∧ (genMocSkipHdrEntry "p").generated = true
    ∧ (scanStep PolicyStatus.OLD true true initScanState
        (genMocSkipHdrEntry "p")).setup = initScanState.setup :=
  ⟨by decide, by decide, by decide,
    (scanStep_policyOldWarn_dropsAll PolicyStatus.OLD true true initScanState
      (genMocSkipHdrEntry "p") (Or.inl rfl) (by decide) (by decide)
      (by decide)).1⟩

/-- Helper: each scan step appends to every bucket exactly the chunk
selected by the bucket's membership predicate. -/
theorem scanStep_buckets (policy : PolicyStatus) (m u : Bool)
    (st : ScanState) (sf : SourceFileEntry) :
    (scanStep policy m u st sf).setup.sources
      = st.setup.sources
        ++ (if pSources policy m u sf then [sf.realPath] else [])
    ∧ (scanStep policy m u st sf).setup.headers
      = st.setup.headers
        ++ (if pHeaders policy m u sf then [sf.realPath] else [])
    ∧ (scanStep policy m u st sf).setup.mocSkip
      = st.setup.mocSkip
        ++ (if pMocSkip policy m u sf then [sf.realPath] else [])
    ∧ (scanStep policy m u st sf).setup.uicSkip
      = st.setup.uicSkip
        ++ (if pUicSkip policy m u sf then [sf.realPath] else []) := by
  cases hfmt : sf.format <;>
    cases hA : sfAccept m u sf <;>
    cases hG : sf.generated <;>
    cases hP : policyAccept policy <;>
    cases hM : sfMocSkip sf <;>
    cases hU : sfUicSkip sf <;>
    simp [scanStep, scanAdd, pSources, pHeaders, pMocSkip, pUicSkip,
      scanKept, scanFormatOk, hfmt, hA, hG, hP, hM, hU]

/-- Helper: the per-element chunk merges with the filtered tail. -/
theorem chunk_filter_map (p : SourceFileEntry → Bool)
    (f : SourceFileEntry → String) (sf : SourceFileEntry)
    (fs : List SourceFileEntry) :
    (if p sf then [f sf] else []) ++ (fs.filter p).map f
      = ((sf :: fs).filter p).map f := by
  cases hp : p sf <;> simp [List.filter_cons, hp]

/-- Helper: bucket contents of the whole scan are the realPath images of
the predicate-filtered source list. -/
theorem scanFiles_buckets (policy : PolicyStatus) (m u : Bool) :
    ∀ (srcFiles : List SourceFileEntry) (st : ScanState),
      (setupAcquireScanFiles policy m u st srcFiles).setup.sources
        = st.setup.sources
          ++ (srcFiles.filter (pSources policy m u)).map SourceFileEntry.realPath
      ∧ (setupAcquireScanFiles policy m u st srcFiles).setup.headers
        = st.setup.headers
          ++ (srcFiles.filter (pHeaders policy m u)).map SourceFileEntry.realPath
      ∧ (setupAcquireScanFiles policy m u st srcFiles).setup.mocSkip
        = st.setup.mocSkip
          ++ (srcFiles.filter (pMocSkip policy m u)).map SourceFileEntry.realPath
      ∧ (setupAcquireScanFiles policy m u st srcFiles).setup.uicSkip
        = st.setup.uicSkip
          ++ (srcFiles.filter (pUicSkip policy m u)).map SourceFileEntry.realPath := by
  intro srcFiles
  induction srcFiles with
  | nil => intro st; simp [setupAcquireScanFiles]
  | cons sf fs ih =>
    intro st
    have hstep := scanStep_buckets policy m u st sf
    have hih := ih (scanStep policy m u st sf)
    have hfold : setupAcquireScanFiles policy m u st (sf :: fs)
        = setupAcquireScanFiles policy m u (scanStep policy m u st sf) fs := rfl
    rw [hfold]
    refine ⟨?_, ?_, ?_, ?_⟩
    · rw [hih.1, hstep.1, List.append_assoc, chunk_filter_map]
    · rw [hih.2.1, hstep.2.1, List.append_assoc, chunk_filter_map]
    · rw [hih.2.2.1, hstep.2.2.1, List.append_assoc, chunk_filter_map]
    · rw [hih.2.2.2, hstep.2.2.2, List.append_assoc, chunk_filter_map]

/-- Helper: each rcc step appends to the rccFiles bucket exactly the
eligible file's canonical path. -/
theorem rccStep_bucket (isQt5 : Bool) (targetOpts : List String)
    (st : RccSetup) (sf : SourceFileEntry) :
    (rccStep isQt5 targetOpts st sf).rccFiles
      = st.rccFiles ++ (if rccEligible sf then [sf.realPath] else []) := by
  cases he : rccEligible sf
  · simp [rccStep, he]
  · simp only [rccStep, he, if_true]
    split <;> simp

/-- Helper: the rccFiles bucket of the whole rcc setup loop. -/
theorem rccFiles_bucket (isQt5 : Bool) (targetOpts : List String) :
    ∀ (srcFiles : List SourceFileEntry) (st : RccSetup),
      (setupAutoTargetRccFiles isQt5 targetOpts st srcFiles).rccFiles
        = st.rccFiles
          ++ (srcFiles.filter rccEligible).map SourceFileEntry.realPath := by
  intro srcFiles
  induction srcFiles with
  | nil => intro st; simp [setupAutoTargetRccFiles]
  | cons sf fs ih =>
    intro st
    have hfold : setupAutoTargetRccFiles isQt5 targetOpts st (sf :: fs)
        = setupAutoTargetRccFiles isQt5 targetOpts
            (rccStep isQt5 targetOpts st sf) fs := rfl
    rw [hfold, ih, rccStep_bucket, List.append_assoc, chunk_filter_map]

/-- Helper: mapping over a filtered sublist preserves Nodup. -/
theorem filter_map_realPath_nodup (p : SourceFileEntry → Bool)
    (l : List SourceFileEntry)
    (h : (l.map SourceFileEntry.realPath).Nodup) :
    ((l.filter p).map SourceFileEntry.realPath).Nodup :=
  h.sublist ((List.filter_sublist l).map SourceFileEntry.realPath)

/-- C7 counterexample: two source entries with distinct declared paths
whose canonical real paths coincide (a symlinked header) are both pushed,
so the headers bucket holds a duplicate canonical path. -/
theorem classification_dup_cex :
    (setupAcquireScanFiles PolicyStatus.NEW true true initScanState
      [hdrEntry "p", hdrEntrySymlink]).setup.headers = ["p", "p"]
    ∧ ¬ (setupAcquireScanFiles PolicyStatus.NEW true true initScanState
      [hdrEntry "p", hdrEntrySymlink]).setup.headers.Nodup
    ∧ (hdrEntry "p").fullPath ≠ hdrEntrySymlink.fullPath := by decide

/-- C7 (amended): whenever the canonical real paths of the target source
entries are pairwise distinct, every single bucket produced by
classification — compilable sources, headers, reflection skip list, UI
skip list and the resource bucket — contains no duplicate paths.  (The
counterexample shows the proviso is necessary: the buckets are plain
appends and two entries canonicalizing to one path duplicate it.) -/
theorem classification_buckets_nodup (policy : PolicyStatus)
    (m u isQt5 : Bool) (targetOpts : List String)
    (srcFiles : List SourceFileEntry)
    (h : (srcFiles.map SourceFileEntry.realPath).Nodup) :
    (setupAcquireScanFiles policy m u initScanState srcFiles).setup.sources.Nodup
    ∧ (setupAcquireScanFiles policy m u initScanState srcFiles).setup.headers.Nodup
    ∧ (setupAcquireScanFiles policy m u initScanState srcFiles).setup.mocSkip.Nodup
    ∧ (setupAcquireScanFiles policy m u initScanState srcFiles).setup.uicSkip.Nodup
    ∧ (setupAutoTargetRccFiles isQt5 targetOpts initRccSetup srcFiles).rccFiles.Nodup := by
  have hb := scanFiles_buckets policy m u srcFiles initScanState
  have hr := rccFiles_bucket isQt5 targetOpts srcFiles initRccSetup
  refine ⟨?_, ?_, ?_, ?_, ?_⟩
  · rw [hb.1]; simpa [initScanState] using filter_map_realPath_nodup _ _ h
  · rw [hb.2.1]; simpa [initScanState] using filter_map_realPath_nodup _ _ h
  · rw [hb.2.2.1]; simpa [initScanState] using filter_map_realPath_nodup _ _ h
  · rw [hb.2.2.2]; simpa [initScanState] using filter_map_realPath_nodup _ _ h
  · rw [hr]; simpa [initRccSetup] using filter_map_realPath_nodup _ _ h

/-- C7 witness at a concrete two-entry source list with distinct
canonical paths. -/
theorem classification_buckets_nodup_witness :
    ((([hdrEntry "p", hdrEntry "q"] : List SourceFileEntry).map
        SourceFileEntry.realPath).Nodup)
    ∧ (setupAcquireScanFiles PolicyStatus.NEW true true initScanState
        [hdrEntry "p", hdrEntry "q"]).setup.headers.Nodup :=
  ⟨by decide,
    (classification_buckets_nodup PolicyStatus.NEW true true true []
      [hdrEntry "p", hdrEntry "q"] (by decide)).2.1⟩

/-- Helper: the string join agrees with its character-list mirror. -/
theorem cmJoin_data :
    ∀ (l : List String),
      (cmJoinSep ";" l).data = dataJoin (Char.ofNat 59) (l.map String.data) := by
  intro l
  induction l with
  | nil => rfl
  | cons x xs ih =>
    cases xs with
    | nil => rfl
    | cons y ys =>
      show (x ++ ";" ++ cmJoinSep ";" (y :: ys)).data
          = x.data ++ Char.ofNat 59 :: dataJoin (Char.ofNat 59)
              ((y :: ys).map String.data)
      rw [String.data_append, String.data_append, ih]
      have hsep : (";" : String).data = [Char.ofNat 59] := rfl
      rw [hsep, List.append_assoc, List.singleton_append]

/-- Helper: a separator occurrence splits a character list uniquely when
neither prefix contains the separator. -/
theorem sep_split_eq (sep : Char) :
    ∀ (a b x y : List Char), sep ∉ a → sep ∉ b →
      a ++ sep :: x = b ++ sep :: y → a = b ∧ x = y := by
  intro a
  induction a with
  | nil =>
    intro b x y _ hb h
    cases b with
    | nil =>
      simp only [List.nil_append] at h
      exact ⟨rfl, (List.cons.injEq _ _ _ _).mp h |>.2⟩
    | cons c cs =>
      exfalso
      simp only [List.nil_append, List.cons_append] at h
      have h1 : sep = c := ((List.cons.injEq _ _ _ _).mp h).1
      exact hb (h1 ▸ List.mem_cons_self c cs)
  | cons d ds ih =>
    intro b x y ha hb h
    cases b with
    | nil =>
      exfalso
      simp only [List.cons_append, List.nil_append] at h
      have h1 : d = sep := ((List.cons.injEq _ _ _ _).mp h).1
      exact ha (h1 ▸ List.mem_cons_self d ds)
    | cons c cs =>
      simp only [List.cons_append] at h
      have h1 := (List.cons.injEq _ _ _ _).mp h
      have ha2 : sep ∉ ds := fun hm => ha (List.mem_cons_of_mem d hm)
      have hb2 : sep ∉ cs := fun hm => hb (List.mem_cons_of_mem c hm)
      obtain ⟨hd, ht⟩ := ih cs x y ha2 hb2 h1.2
      exact ⟨by rw [h1.1, hd], ht⟩

/-- Helper: the separator join is injective on nonempty lists of
separator-free character lists. -/
theorem dataJoin_inj (sep : Char) :
    ∀ (l1 l2 : List (List Char)),
      (∀ a ∈ l1, sep ∉ a) → (∀ a ∈ l2, sep ∉ a) → l1 ≠ [] → l2 ≠ [] →
      dataJoin sep l1 = dataJoin sep l2 → l1 = l2 := by
  intro l1
  induction l1 with
  | nil => intro l2 _ _ h1 _ _; exact absurd rfl h1
  | cons x xs ih =>
    intro l2 h1 h2 _ hne2 heq
    cases l2 with
    | nil => exact absurd rfl hne2
    | cons y ys =>
      cases xs with
      | nil =>
        cases ys with
        | nil =>
          simp only [dataJoin] at heq
          rw [heq]
        | cons y2 ys2 =>
          exfalso
          have hx : sep ∉ x := h1 x (List.mem_cons_self x [])
          apply hx
          simp only [dataJoin] at heq
          rw [heq]
          exact List.mem_append_right y (List.mem_cons_self sep _)
      | cons x2 xs2 =>
        cases ys with
        | nil =>
          exfalso
          have hy : sep ∉ y := h2 y (List.mem_cons_self y [])
          apply hy
          simp only [dataJoin] at heq
          rw [← heq]
          exact List.mem_append_right x (List.mem_cons_self sep _)
        | cons y2 ys2 =>
          simp only [dataJoin] at heq
          obtain ⟨hxy, hJ⟩ :=
            sep_split_eq sep x y _ _ (h1 x (List.mem_cons_self x _))
              (h2 y (List.mem_cons_self y _)) heq
          have hrest :=
            ih (y2 :: ys2)
              (fun a ha => h1 a (List.mem_cons_of_mem x ha))
              (fun a ha => h2 a (List.mem_cons_of_mem y ha))
              (List.cons_ne_nil x2 xs2) (List.cons_ne_nil y2 ys2) hJ
          rw [hxy, hrest]

/-- Helper: String.data is injective. -/
theorem string_data_inj : Function.Injective String.data := by
  intro a b h
  cases a
  cases b
  exact congrArg String.mk (by simpa using h)

/-- Helper: the semicolon join is injective on nonempty lists of
semicolon-free strings. -/
theorem cmJoin_inj (l1 l2 : List String)
    (h1 : ∀ s ∈ l1, Char.ofNat 59 ∉ s.data)
    (h2 : ∀ s ∈ l2, Char.ofNat 59 ∉ s.data)
    (hne1 : l1 ≠ []) (hne2 : l2 ≠ [])
    (heq : cmJoinSep ";" l1 = cmJoinSep ";" l2) : l1 = l2 := by
  have hd : dataJoin (Char.ofNat 59) (l1.map String.data)
      = dataJoin (Char.ofNat 59) (l2.map String.data) := by
    rw [← cmJoin_data, ← cmJoin_data, heq]
  have hmaps : l1.map String.data = l2.map String.data := by
    refine dataJoin_inj (Char.ofNat 59) _ _ ?_ ?_ ?_ ?_ hd
    · intro a ha
      obtain ⟨s, hs, rfl⟩ := List.mem_map.mp ha
      exact h1 s hs
    · intro a ha
      obtain ⟨s, hs, rfl⟩ := List.mem_map.mp ha
      exact h2 s hs
    · simpa using hne1
    · simpa using hne2
  exact (List.map_injective_iff.mpr string_data_inj) hmaps

/-- Helper: two distinct permutations of each other with separator-free
elements join to different strings. -/
theorem cmJoin_ne_of_perm_ne (l1 l2 : List String)
    (hperm : l1.Perm l2) (hne : l1 ≠ l2)
    (hsep : ∀ s ∈ l1, Char.ofNat 59 ∉ s.data) :
    cmJoinSep ";" l1 ≠ cmJoinSep ";" l2 := by
  intro heq
  have hsep2 : ∀ s ∈ l2, Char.ofNat 59 ∉ s.data :=
    fun s hs => hsep s (hperm.mem_iff.mpr hs)
  by_cases hnil : l1 = []
  · subst hnil
    exact hne (List.Perm.nil_eq hperm)
  · have hnil2 : l2 ≠ [] := by
      intro h
      subst h
      exact hnil (List.Perm.eq_nil hperm)
    exact hne (cmJoin_inj l1 l2 hsep hsep2 hnil hnil2 heq)

/-- C4 counterexample: when a list element contains the join separator,
a configuration whose computed list differs from baseline only in
element ordering can join to the identical string, and then no diff
entry is emitted although the claim demands one. -/
theorem configDiff_ordering_cex :
    (cexValsOf "A").Perm (cexValsOf "B")
    ∧ cexValsOf "A" ≠ cexValsOf "B"
    ∧ cmJoinSep ";" (cexValsOf "A") = cmJoinSep ";" (cexValsOf "B")
    ∧ configDiffEntries cexValsOf "B" ["A"] = [] := by decide

/-- C4 (amended): for every configuration in the declared list, a diff
entry is recorded if and only if its canonically joined string differs
from the baseline's joined string; a configuration whose computed values
equal baseline yields no entry; and a configuration whose list is a
distinct permutation of the baseline's yields an entry provided no list
element contains the join separator (the counterexample shows this
proviso is necessary). -/
theorem configDiff_characterization (valsOf : String → List String)
    (baseline : String) (configs : List String) (c : String)
    (hc : c ∈ configs) :
    ((c, cmJoinSep ";" (valsOf c)) ∈ configDiffEntries valsOf baseline configs
      ↔ cmJoinSep ";" (valsOf c) ≠ cmJoinSep ";" (valsOf baseline))
    ∧ (valsOf c = valsOf baseline →
        ∀ v, (c, v) ∉ configDiffEntries valsOf baseline configs)
    ∧ ((valsOf c).Perm (valsOf baseline) → valsOf c ≠ valsOf baseline →
        (∀ s ∈ valsOf c, Char.ofNat 59 ∉ s.data) →
        (c, cmJoinSep ";" (valsOf c))
          ∈ configDiffEntries valsOf baseline configs) := by
  have hiff :
      (c, cmJoinSep ";" (valsOf c)) ∈ configDiffEntries valsOf baseline configs
        ↔ cmJoinSep ";" (valsOf c) ≠ cmJoinSep ";" (valsOf baseline) := by
    constructor
    · intro hmem
      obtain ⟨a, _, hfa⟩ := List.mem_filterMap.mp hmem
      by_cases hcond :
          cmJoinSep ";" (valsOf a) = cmJoinSep ";" (valsOf baseline)
      · rw [if_pos hcond] at hfa
        cases hfa
      · rw [if_neg hcond] at hfa
        have hac : a = c :=
          ((Prod.mk.injEq _ _ _ _).mp (Option.some.inj hfa)).1
        rw [← hac]
        exact hcond
    · intro hne
      refine List.mem_filterMap.mpr ⟨c, hc, ?_⟩
      rw [if_neg hne]
  refine ⟨hiff, ?_, ?_⟩
  · intro hv v hmem
    obtain ⟨a, _, hfa⟩ := List.mem_filterMap.mp hmem
    by_cases hcond :
        cmJoinSep ";" (valsOf a) = cmJoinSep ";" (valsOf baseline)
    · rw [if_pos hcond] at hfa
      cases hfa
    · rw [if_neg hcond] at hfa
      have hac : a = c :=
        ((Prod.mk.injEq _ _ _ _).mp (Option.some.inj hfa)).1
      rw [hac, hv] at hcond
      exact hcond rfl
  · intro hperm hne hsep
    exact hiff.mpr (cmJoin_ne_of_perm_ne _ _ hperm hne hsep)

/-- C4 witness at concrete per-configuration values: configuration A is
a separator-free reordering of baseline B and receives an entry, while a
configuration equal to baseline receives none. -/
theorem configDiff_characterization_witness :
    ("A", cmJoinSep ";" (pValsOf "A")) ∈ configDiffEntries pValsOf "B" ["A", "B"]
    ∧ (∀ v, ("B", v) ∉ configDiffEntries pValsOf "B" ["A", "B"]) :=
  ⟨(configDiff_characterization pValsOf "B" ["A", "B"] "A"
      (by decide)).2.2 (by decide) (by decide) (by decide),
   (configDiff_characterization pValsOf "B" ["A", "B"] "B"
      (by decide)).2.1 rfl⟩

end QtAutogen
